import Mathlib

/-!
Verification of the augments-mcp-server repository: the MCP web dispatcher
(src/augments_mcp/mcp_web_server.py) and the documentation-cache coordinator
it fronts.  The dispatcher is embedded from the source; the registry/cache
coordinator modules are not part of the visible source, so the coordinator
definitions below are modelled from the specification and marked as such.
-/

/-- A JSON value as decoded by Python json.loads.  JSON null decodes to the
Python value None, so the constructor Json.null stands for Python None
throughout this development. -/
inductive Json where
  | null : Json
  | bool : Bool → Json
  | num : Int → Json
  | str : String → Json
  | arr : List Json → Json
  | obj : List (String × Json) → Json

/-- A decoded JSON object / Python dict, as an association list.  json.loads
deduplicates keys (last occurrence wins); the dispatcher only reads objects it
does not build, and no claim involves duplicate keys, so first-key lookup via
List.lookup is adequate. -/
abbrev JObj := List (String × Json)

/-- Python membership test key in d for a decoded dict. -/
def JObj.hasKey (o : JObj) (k : String) : Bool :=
  (o.lookup k).isSome

/-- Python d[key] on a decoded JSON value: KeyError when the key is absent,
TypeError when the value is not a dict.  Exceptions are modelled as
Except.error carrying the message. -/
def Json.index (a : Json) (k : String) : Except String Json :=
  match a with
  | .obj o =>
    match o.lookup k with
    | some v => .ok v
    | none => .error ("KeyError: " ++ k)
  | _ => .error ("TypeError: value is not subscriptable: " ++ k)

/-- Python d.get(key) on a decoded JSON value: None when the key is absent,
AttributeError when the value is not a dict. -/
def Json.get (a : Json) (k : String) : Except String (Option Json) :=
  match a with
  | .obj o => .ok (o.lookup k)
  | _ => .error ("AttributeError: no method get: " ++ k)

/-- Python d.get(key, default) on a decoded JSON value.  The default is used
only when the key is absent; a stored null (Python None) is returned as is. -/
def Json.getOr (a : Json) (k : String) (d : Json) : Except String Json :=
  match a with
  | .obj o => .ok ((o.lookup k).getD d)
  | _ => .error ("AttributeError: no method get: " ++ k)

/-- Rendering of a JSON value inside a Python f-string, used only to build
the Unknown-tool error message. -/
def Json.describe : Json → String
  | .null => "None"
  | .bool true => "True"
  | .bool false => "False"
  | .num n => toString n
  | .str s => s
  | .arr _ => "list"
  | .obj _ => "dict"

/-- Python equality test tool_name == s for a decoded JSON value against a
string literal. -/
def Json.isStr (t : Json) (s : String) : Bool :=
  match t with
  | .str x => x == s
  | _ => false

/-- One call from handle_tools_call (mcp_web_server.py lines 342-429) into a
tool implementation function of the tools layer: which implementation is
invoked, and with which request-derived argument values.  The registry, cache
and provider objects the dispatcher also passes are process globals, not
request data, and are left implicit. -/
inductive ToolInvocation where
  | list_available_frameworks : Option Json → ToolInvocation
  | search_frameworks : Json → ToolInvocation
  | get_framework_info : Json → ToolInvocation
  | get_framework_docs : Json → Option Json → Json → ToolInvocation
  | get_framework_examples : Json → Option Json → ToolInvocation
  | search_documentation : Json → Json → Json → ToolInvocation
  | get_framework_context : Json → Json → ToolInvocation
  | analyze_code_compatibility : Json → Json → ToolInvocation
  | check_framework_updates : Json → ToolInvocation
  | refresh_framework_cache : Option Json → Json → ToolInvocation
  | get_cache_stats : ToolInvocation
  | get_registry_stats : ToolInvocation

/-- Argument unpacking of handle_tools_call (mcp_web_server.py lines 342-429):
from the request params, the tool invocation made, or the exception raised
(ValueError for a missing tool name or an unknown tool, KeyError for a missing
required argument).  Python "not params or \"name\" not in params" is true for
params None, for an empty dict and for a dict without the key "name"; all
three reduce to the name lookup failing.  Argument reads follow the keyword
evaluation order of the source. -/
def toolInvocation (params : Option JObj) : Except String ToolInvocation :=
  match params with
  | none => .error "Tool name is required"
  | some p =>
    match p.lookup "name" with
    | none => .error "Tool name is required"
    | some tool_name =>
      let tool_params : Json := (p.lookup "arguments").getD (.obj [])
      if tool_name.isStr "list_available_frameworks" then do
        let category ← tool_params.get "category"
        .ok (.list_available_frameworks category)
      else if tool_name.isStr "search_frameworks" then do
        let query ← tool_params.index "query"
        .ok (.search_frameworks query)
      else if tool_name.isStr "get_framework_info" then do
        let framework ← tool_params.index "framework"
        .ok (.get_framework_info framework)
      else if tool_name.isStr "get_framework_docs" then do
        let framework ← tool_params.index "framework"
        let sect ← tool_params.get "section"
        let use_cache ← tool_params.getOr "use_cache" (.bool true)
        .ok (.get_framework_docs framework sect use_cache)
      else if tool_name.isStr "get_framework_examples" then do
        let framework ← tool_params.index "framework"
        let pat ← tool_params.get "pattern"
        .ok (.get_framework_examples framework pat)
      else if tool_name.isStr "search_documentation" then do
        let framework ← tool_params.index "framework"
        let query ← tool_params.index "query"
        let limit ← tool_params.getOr "limit" (.num 10)
        .ok (.search_documentation framework query limit)
      else if tool_name.isStr "get_framework_context" then do
        let frameworks ← tool_params.index "frameworks"
        let task_description ← tool_params.index "task_description"
        .ok (.get_framework_context frameworks task_description)
      else if tool_name.isStr "analyze_code_compatibility" then do
        let code ← tool_params.index "code"
        let frameworks ← tool_params.index "frameworks"
        .ok (.analyze_code_compatibility code frameworks)
      else if tool_name.isStr "check_framework_updates" then do
        let framework ← tool_params.index "framework"
        .ok (.check_framework_updates framework)
      else if tool_name.isStr "refresh_framework_cache" then do
        let framework ← tool_params.get "framework"
        let force ← tool_params.getOr "force" (.bool false)
        .ok (.refresh_framework_cache framework force)
      else if tool_name.isStr "get_cache_stats" then .ok .get_cache_stats
      else if tool_name.isStr "get_registry_stats" then .ok .get_registry_stats
      else .error ("Unknown tool: " ++ tool_name.describe)

/-- handle_tools_call (mcp_web_server.py lines 342-429): unpack the arguments,
then invoke the selected tool implementation.  The tools layer is external to
the visible source and is passed in as env; its exceptions are Except.error
values. -/
def handle_tools_call (env : ToolInvocation → Except String Json)
    (params : Option JObj) : Except String Json :=
  match toolInvocation params with
  | .error e => .error e
  | .ok inv => env inv

/-- SERVER_INFO (mcp_web_server.py lines 51-54). -/
def SERVER_INFO : Json :=
  .obj [("name", .str "augments-mcp-server"), ("version", .str "2.0.0")]

/-- CAPABILITIES (mcp_web_server.py lines 56-59). -/
def CAPABILITIES : Json :=
  .obj [("tools", .obj []), ("completion", .obj [])]

/-- The TOOLS table (mcp_web_server.py lines 62-254), reduced to each tool
name and the defaults its input schema declares; the description strings and
the remaining schema fields are data no code path reads and are elided. -/
def TOOLS : Json := .arr
  [ .obj [("name", .str "list_available_frameworks")],
    .obj [("name", .str "search_frameworks")],
    .obj [("name", .str "get_framework_info")],
    .obj [("name", .str "get_framework_docs"),
          ("inputSchema", .obj [("properties", .obj
            [("use_cache", .obj [("default", .bool true)])])])],
    .obj [("name", .str "get_framework_examples")],
    .obj [("name", .str "search_documentation"),
          ("inputSchema", .obj [("properties", .obj
            [("limit", .obj [("default", .num 10)])])])],
    .obj [("name", .str "get_framework_context")],
    .obj [("name", .str "analyze_code_compatibility")],
    .obj [("name", .str "check_framework_updates")],
    .obj [("name", .str "refresh_framework_cache"),
          ("inputSchema", .obj [("properties", .obj
            [("force", .obj [("default", .bool false)])])])],
    .obj [("name", .str "get_cache_stats")],
    .obj [("name", .str "get_registry_stats")] ]

/-- Result dict of handle_initialize (mcp_web_server.py lines 325-331). -/
def initializeResult : Json :=
  .obj [("protocolVersion", .str "0.1.0"),
        ("serverInfo", SERVER_INFO),
        ("capabilities", CAPABILITIES)]

/-- The five registered JSON-RPC method handlers (mcp_web_server.py lines
437-443). -/
inductive Handler where
  | hInitialize : Handler
  | hInitialized : Handler
  | toolsList : Handler
  | toolsCall : Handler
  | completionComplete : Handler

/-- METHOD_HANDLERS (mcp_web_server.py lines 437-443). -/
def METHOD_HANDLERS : List (String × Handler) :=
  [("initialize", .hInitialize),
   ("initialized", .hInitialized),
   ("tools/list", .toolsList),
   ("tools/call", .toolsCall),
   ("completion/complete", .completionComplete)]

/-- METHOD_HANDLERS.get(message.method). -/
def methodHandler (m : String) : Option Handler :=
  METHOD_HANDLERS.lookup m

/-- Running one handler (mcp_web_server.py lines 325-340, 431-434): the value
the coroutine returns, Option Json since handle_initialized returns Python
None, or the exception it raises.  Only tools/call can raise. -/
def runHandler (env : ToolInvocation → Except String Json) :
    Handler → Option JObj → Except String (Option Json)
  | .hInitialize, _ => .ok (some initializeResult)
  | .hInitialized, _ => .ok none
  | .toolsList, _ => .ok (some (.obj [("tools", TOOLS)]))
  | .toolsCall, p => (handle_tools_call env p).map some
  | .completionComplete, _ =>
    .ok (some (.obj [("completion", .obj [("values", .arr [])])]))

/-- JsonRpcRequest (mcp_web_server.py lines 38-42). -/
structure JsonRpcRequest where
  jsonrpc : String := "2.0"
  id : Option Json := none
  method : String
  params : Option JObj := none

/-- JsonRpcResponse (mcp_web_server.py lines 44-48); the error field, when
set, is the dict the source builds with keys code and message. -/
structure JsonRpcResponse where
  jsonrpc : String := "2.0"
  id : Option Json := none
  result : Option Json := none
  error : Option JObj := none

/-- Error dict of the source: code plus message. -/
def rpcError (code : Int) (msg : String) : JObj :=
  [("code", .num code), ("message", .str msg)]

/-- process_message (mcp_web_server.py lines 445-469): look the method up in
METHOD_HANDLERS, answering -32601 when absent; run the handler, wrapping its
value as the result; catch any handler exception as a -32603 error response.
Total by construction, always echoing the request id. -/
def process_message (env : ToolInvocation → Except String Json)
    (message : JsonRpcRequest) : JsonRpcResponse :=
  match methodHandler message.method with
  | none =>
    { id := message.id,
      error := some (rpcError (-32601) ("Method not found: " ++ message.method)) }
  | some h =>
    match runHandler env h message.params with
    | .ok r => { id := message.id, result := r }
    | .error e =>
      { id := message.id, error := some (rpcError (-32603) e) }

/-- Serialization of a response on the success path of sse_generator
(mcp_web_server.py lines 471-483): model_dump with exclude_none True, so a
None-valued field is omitted, in pydantic declaration order. -/
def serializeResponse (r : JsonRpcResponse) : JObj :=
  [("jsonrpc", .str r.jsonrpc)]
    ++ (match r.id with | some v => [("id", v)] | none => [])
    ++ (match r.result with | some v => [("result", v)] | none => [])
    ++ (match r.error with | some e => [("error", .obj e)] | none => [])

/-- Default of the REDIS_URL environment variable (mcp_web_server.py line
258). -/
def defaultRedisUrl : String := "redis://localhost:6379/0"

/-- get_redis_url (mcp_web_server.py lines 256-258); the environment variable
is an Option since it may be unset. -/
def get_redis_url (envRedisUrl : Option String) : String :=
  envRedisUrl.getD defaultRedisUrl

/-- Process-global components built by the startup half of lifespan
(mcp_web_server.py lines 260-302): the Redis client if one was connected, the
redis_client argument the DocumentationCache was constructed with, whether a
connection was attempted at all, and the warnings logged while starting. -/
structure ServerComponents (R : Type) where
  redis_client : Option R
  docCacheRedis : Option R
  redisConnectAttempted : Bool
  warnings : List String

/-- Startup half of lifespan (mcp_web_server.py lines 260-302).  The external
effects are parameters: connect is redis.from_url followed by ping, collapsed
into one fallible step; registryInit is FrameworkRegistryManager.initialize.
A connection is attempted only when the URL differs from the localhost
default; a connection failure is logged as a warning and leaves the client
None; a registryInit failure escapes the outer try and is re-raised, so the
lifespan never reaches its yield point. -/
def lifespanStartup {R : Type} (envRedisUrl : Option String)
    (connect : String → Except String R)
    (registryInit : Except String Unit) : Except String (ServerComponents R) :=
  let redis_url := get_redis_url envRedisUrl
  let attempted : Bool := redis_url != defaultRedisUrl
  let connection : Option R × List String :=
    if redis_url ≠ defaultRedisUrl then
      match connect redis_url with
      | .ok c => (some c, [])
      | .error e =>
        (none, ["Could not connect to Redis: " ++ e ++ ", continuing without Redis"])
    else (none, [])
  match registryInit with
  | .error e => .error e
  | .ok _ =>
    .ok { redis_client := connection.1,
          docCacheRedis := connection.1,
          redisConnectAttempted := attempted,
          warnings := connection.2 }

/-- Modelled from the spec: CacheEntry (spec section 3) of the Documentation
Cache, whose implementation module is not part of the visible source.  The
content is opaque text; originMetadata plays no role in any claim and is
elided. -/
structure CacheEntry where
  content : String
  fetchedAt : Nat
  ttl : Nat
deriving DecidableEq

/-- Modelled from the spec: isStale (spec section 4.2), the pure staleness
test now - fetchedAt > ttl. -/
def isStale (e : CacheEntry) (now : Nat) : Bool :=
  e.ttl < now - e.fetchedAt

/-- Modelled from the spec: the cache-store view plus CacheStatistics counters
(spec section 3) a single getOrRefresh call reads and writes.  The store is
the merged two-tier view keyed by CacheKey; the key type is abstract. -/
structure CoordState (K : Type) where
  cache : K → Option CacheEntry
  hits : Nat
  misses : Nat
  fetchFailures : Nat

/-- Pointwise update of a map at one index. -/
def updAt {I : Type} [DecidableEq I] {A : Type} (f : I → A) (i : I) (v : A) :
    I → A :=
  fun j => if j = i then v else f j

/-- Modelled from the spec: the fetch-and-resolve half of getOrRefresh (spec
section 4.3 step 3) for one caller.  Records the miss, then on provider
success writes the new entry through and returns it; on provider failure
records the failure, writes nothing, and returns a present prior entry if one
exists (serve-stale-on-error), otherwise propagates the failure. -/
def refreshFetch {K : Type} [DecidableEq K] (st : CoordState K) (key : K)
    (fetchResult : Except String String) (now ttl : Nat) :
    Except String CacheEntry × CoordState K :=
  let st1 := { st with misses := st.misses + 1 }
  match fetchResult with
  | .ok content =>
    let entry : CacheEntry := { content := content, fetchedAt := now, ttl := ttl }
    (.ok entry, { st1 with cache := updAt st1.cache key (some entry) })
  | .error e =>
    let st2 := { st1 with fetchFailures := st1.fetchFailures + 1 }
    match st.cache key with
    | some prior => (.ok prior, st2)
    | none => (.error e, st2)

/-- Modelled from the spec: getOrRefresh (spec section 4.3) for a single
caller, with the Content Provider outcome passed in as fetchResult and the
per-kind TTL as ttl.  Step 1 skips the cache read when useCache is false or
forceRefresh is true; step 2 returns a present, non-stale entry as a hit;
step 3 is refreshFetch.  The RefreshTicket logic is degenerate for a single
caller and is treated separately by the concurrent model below. -/
def getOrRefresh {K : Type} [DecidableEq K] (st : CoordState K) (key : K)
    (fetchResult : Except String String) (forceRefresh useCache : Bool)
    (now ttl : Nat) : Except String CacheEntry × CoordState K :=
  match useCache, forceRefresh, st.cache key with
  | true, false, some e =>
    if isStale e now then refreshFetch st key fetchResult now ttl
    else (.ok e, { st with hits := st.hits + 1 })
  | true, false, none => refreshFetch st key fetchResult now ttl
  | _, _, _ => refreshFetch st key fetchResult now ttl

/-- Modelled from the spec: the entry the Coordinator builds from fetched
content within the single-flight window (spec section 4.3).  The concurrent
model abstracts from time, so the timestamp fields are fixed; no transition
of the model consults them. -/
def mkEntry (content : String) : CacheEntry :=
  { content := content, fetchedAt := 0, ttl := 0 }

/-- Modelled from the spec: the shared outcome all callers attached to a
RefreshTicket receive (spec section 4.3): the new entry on provider success,
the failure otherwise. -/
def fetchOutcome {K : Type} (fetchRes : K → Except String String) (k : K) :
    Except String CacheEntry :=
  (fetchRes k).map mkEntry

instance {ε α : Type} [DecidableEq ε] [DecidableEq α] : DecidableEq (Except ε α)
  | .error a, .error b => decidable_of_iff (a = b) (by simp)
  | .error _, .ok _ => isFalse (by simp)
  | .ok _, .error _ => isFalse (by simp)
  | .ok a, .ok b => decidable_of_iff (a = b) (by simp)

/-- Modelled from the spec: program counter of one getOrRefresh caller in the
single-flight protocol (spec sections 4.3 and 5): about to check the cache
and ticket map; attached to a ticket awaiting its outcome; owner of a ticket
with the provider call in flight; or returned with a result. -/
inductive CallerPC (K : Type) where
  | idle : K → CallerPC K
  | waitingOn : K → CallerPC K
  | fetching : K → CallerPC K
  | done : K → Except String CacheEntry → CallerPC K
deriving DecidableEq

/-- Modelled from the spec: shared state of the Freshness/Refresh Coordinator
under N concurrent callers (spec section 5): the merged cache view, the
RefreshTicket map holding each in-flight key with its waiter list, the count
of Content-Provider invocations per key, the count of resolved tickets per
key, and every caller program counter. -/
structure FlightState (K : Type) (N : Nat) where
  cache : K → Option CacheEntry
  ticket : K → Option (List (Fin N))
  providerCalls : K → Nat
  resolved : K → Nat
  pc : Fin N → CallerPC K

/-- Modelled from the spec: state after the ticket owner i for key k resolves
(spec section 4.3): on success the entry is written through, on failure
nothing is written; every attached waiter and the owner step to done with the
identical outcome; the ticket is destroyed; the resolved count records the
completed flight. -/
def resolveState {K : Type} [DecidableEq K] {N : Nat}
    (fetchRes : K → Except String String) (s : FlightState K N) (i : Fin N)
    (k : K) : FlightState K N :=
  let r := fetchOutcome fetchRes k
  let ws := (s.ticket k).getD []
  { cache :=
      match fetchRes k with
      | .ok c => updAt s.cache k (some (mkEntry c))
      | .error _ => s.cache,
    ticket := updAt s.ticket k none,
    providerCalls := s.providerCalls,
    resolved := updAt s.resolved k (s.resolved k + 1),
    pc := fun j => if j = i ∨ j ∈ ws then .done k r else s.pc j }

/-- Modelled from the spec: one interleaving step of the single-flight
protocol (spec sections 4.3 and 5).  An idle caller either returns a present
cached entry, attaches to an existing ticket, or atomically
checks-and-creates the ticket and starts the one provider fetch; a ticket
owner resolves, releasing all waiters with the same outcome. -/
inductive FlightStep {K : Type} [DecidableEq K] {N : Nat}
    (fetchRes : K → Except String String) :
    FlightState K N → FlightState K N → Prop where
  | hit (s : FlightState K N) (i : Fin N) (k : K) (e : CacheEntry) :
      s.pc i = .idle k → s.cache k = some e →
      FlightStep fetchRes s { s with pc := updAt s.pc i (.done k (.ok e)) }
  | attach (s : FlightState K N) (i : Fin N) (k : K) (ws : List (Fin N)) :
      s.pc i = .idle k → s.cache k = none → s.ticket k = some ws →
      FlightStep fetchRes s
        { s with
          ticket := updAt s.ticket k (some (i :: ws)),
          pc := updAt s.pc i (.waitingOn k) }
  | createTicket (s : FlightState K N) (i : Fin N) (k : K) :
      s.pc i = .idle k → s.cache k = none → s.ticket k = none →
      FlightStep fetchRes s
        { s with
          ticket := updAt s.ticket k (some []),
          providerCalls := updAt s.providerCalls k (s.providerCalls k + 1),
          pc := updAt s.pc i (.fetching k) }
  | resolve (s : FlightState K N) (i : Fin N) (k : K) :
      s.pc i = .fetching k →
      FlightStep fetchRes s (resolveState fetchRes s i k)

/-- Modelled from the spec: initial state for the single-flight scenario of
spec section 8: a cold cache, no tickets, no provider calls yet, and N
concurrent callers all about to call getOrRefresh on the same key. -/
def coldState (K : Type) (N : Nat) (k : K) : FlightState K N :=
  { cache := fun _ => none,
    ticket := fun _ => none,
    providerCalls := fun _ => 0,
    resolved := fun _ => 0,
    pc := fun _ => .idle k }

/-- Reachability under interleaved single-flight steps. -/
def FlightReachable {K : Type} [DecidableEq K] {N : Nat}
    (fetchRes : K → Except String String) (s t : FlightState K N) : Prop :=
  Relation.ReflTransGen (FlightStep fetchRes) s t

/-- Inductive invariant of the single-flight protocol, tying the ticket map,
the caller program counters, the call counters and the cache together. -/
structure FlightInv {K : Type} [DecidableEq K] {N : Nat}
    (fetchRes : K → Except String String) (s : FlightState K N) : Prop where
  waiting_ticket : ∀ i k, s.pc i = .waitingOn k →
    ∃ ws, s.ticket k = some ws ∧ i ∈ ws
  ticket_waiting : ∀ k ws, s.ticket k = some ws →
    ∀ i, i ∈ ws → s.pc i = .waitingOn k
  fetch_unique : ∀ i j k, s.pc i = .fetching k → s.pc j = .fetching k → i = j
  fetch_ticket : ∀ i k, s.pc i = .fetching k → s.ticket k ≠ none
  calls_count : ∀ k, s.providerCalls k =
    s.resolved k + (if s.ticket k = none then 0 else 1)
  resolved_done : ∀ k, 0 < s.resolved k → ∃ i r, s.pc i = .done k r
  done_outcome : ∀ i k r, s.pc i = .done k r → r = fetchOutcome fetchRes k
  cache_outcome : ∀ k e, s.cache k = some e → fetchOutcome fetchRes k = .ok e

theorem updAt_self {I : Type} [DecidableEq I] {A : Type} {f : I → A} {i : I}
    {v : A} : updAt f i v i = v := by
  simp [updAt]

theorem updAt_ne {I : Type} [DecidableEq I] {A : Type} {f : I → A} {i j : I}
    {v : A} (h : j ≠ i) : updAt f i v j = f j := by
  simp [updAt, h]

/-- Invariant holds in the cold initial state. -/
theorem flightInv_cold {K : Type} [DecidableEq K] {N : Nat}
    (fetchRes : K → Except String String) (k : K) :
    FlightInv fetchRes (coldState K N k) := by
  refine ⟨?_, ?_, ?_, ?_, ?_, ?_, ?_, ?_⟩ <;>
    simp [coldState]

/-- Invariant preservation by one interleaving step. -/
theorem flightInv_step {K : Type} [DecidableEq K] {N : Nat}
    {fetchRes : K → Except String String} {s t : FlightState K N}
    (inv : FlightInv fetchRes s) (hstep : FlightStep fetchRes s t) :
    FlightInv fetchRes t := by
  cases hstep with
  | hit i k e hidle hcache =>
    refine ⟨?_, ?_, ?_, ?_, inv.calls_count, ?_, ?_, inv.cache_outcome⟩
    · intro a k' h
      by_cases ha : a = i
      · subst ha; simp only [updAt_self] at h; exact CallerPC.noConfusion h
      · simp only [updAt_ne ha] at h; exact inv.waiting_ticket a k' h
    · intro k' ws hws a hmem
      have hold := inv.ticket_waiting k' ws hws a hmem
      have ha : a ≠ i := by
        intro h; rw [h, hidle] at hold; exact CallerPC.noConfusion hold
      simp only [updAt_ne ha]; exact hold
    · intro a b k' ha hb
      by_cases h1 : a = i
      · subst h1; simp only [updAt_self] at ha; exact CallerPC.noConfusion ha
      by_cases h2 : b = i
      · subst h2; simp only [updAt_self] at hb; exact CallerPC.noConfusion hb
      simp only [updAt_ne h1] at ha; simp only [updAt_ne h2] at hb
      exact inv.fetch_unique a b k' ha hb
    · intro a k' ha
      by_cases h1 : a = i
      · subst h1; simp only [updAt_self] at ha; exact CallerPC.noConfusion ha
      · simp only [updAt_ne h1] at ha; exact inv.fetch_ticket a k' ha
    · intro k' h
      obtain ⟨w, r, hw⟩ := inv.resolved_done k' h
      have hwi : w ≠ i := by
        intro hh; rw [hh, hidle] at hw; exact CallerPC.noConfusion hw
      exact ⟨w, r, by simp only [updAt_ne hwi]; exact hw⟩
    · intro a k' r ha
      by_cases h1 : a = i
      · subst h1; simp only [updAt_self] at ha
        injection ha with hk hr
        subst hk; subst hr
        exact (inv.cache_outcome k e hcache).symm
      · simp only [updAt_ne h1] at ha; exact inv.done_outcome a k' r ha
  | attach i k ws hidle hcache hticket =>
    refine ⟨?_, ?_, ?_, ?_, ?_, ?_, ?_, inv.cache_outcome⟩
    · intro a k' h
      by_cases ha : a = i
      · subst ha; simp only [updAt_self] at h
        injection h with hk; subst hk
        exact ⟨a :: ws, updAt_self, List.mem_cons_self a ws⟩
      · simp only [updAt_ne ha] at h
        obtain ⟨ws1, hts, hmem⟩ := inv.waiting_ticket a k' h
        by_cases hk : k' = k
        · subst hk
          rw [hticket] at hts
          injection hts with hws; subst hws
          exact ⟨i :: ws, updAt_self, List.mem_cons_of_mem i hmem⟩
        · exact ⟨ws1, by simp only [updAt_ne hk]; exact hts, hmem⟩
    · intro k' ws' hws' a hmem
      by_cases hk : k' = k
      · subst hk
        simp only [updAt_self] at hws'
        injection hws' with hws'; subst hws'
        rcases List.mem_cons.mp hmem with hai | haw
        · subst hai; simp only [updAt_self]
        · have hold := inv.ticket_waiting k' ws hticket a haw
          have ha : a ≠ i := by
            intro hh; rw [hh, hidle] at hold; exact CallerPC.noConfusion hold
          simp only [updAt_ne ha]; exact hold
      · simp only [updAt_ne hk] at hws'
        have hold := inv.ticket_waiting k' ws' hws' a hmem
        have ha : a ≠ i := by
          intro hh; rw [hh, hidle] at hold; exact CallerPC.noConfusion hold
        simp only [updAt_ne ha]; exact hold
    · intro a b k' ha hb
      by_cases h1 : a = i
      · subst h1; simp only [updAt_self] at ha; exact CallerPC.noConfusion ha
      by_cases h2 : b = i
      · subst h2; simp only [updAt_self] at hb; exact CallerPC.noConfusion hb
      simp only [updAt_ne h1] at ha; simp only [updAt_ne h2] at hb
      exact inv.fetch_unique a b k' ha hb
    · intro a k' ha
      have h1 : a ≠ i := by
        intro hh; rw [hh] at ha; simp only [updAt_self] at ha
        exact CallerPC.noConfusion ha
      simp only [updAt_ne h1] at ha
      by_cases hk : k' = k
      · subst hk; simp only [updAt_self]; exact Option.noConfusion
      · simp only [updAt_ne hk]; exact inv.fetch_ticket a k' ha
    · intro k'
      by_cases hk : k' = k
      · subst hk
        simp only [updAt_self]
        have hcc := inv.calls_count k'
        rw [hticket] at hcc
        simpa using hcc
      · simp only [updAt_ne hk]; exact inv.calls_count k'
    · intro k' h
      obtain ⟨w, r, hw⟩ := inv.resolved_done k' h
      have hwi : w ≠ i := by
        intro hh; rw [hh, hidle] at hw; exact CallerPC.noConfusion hw
      exact ⟨w, r, by simp only [updAt_ne hwi]; exact hw⟩
    · intro a k' r ha
      by_cases h1 : a = i
      · subst h1; simp only [updAt_self] at ha; exact CallerPC.noConfusion ha
      · simp only [updAt_ne h1] at ha; exact inv.done_outcome a k' r ha
  | createTicket i k hidle hcache hticket =>
    refine ⟨?_, ?_, ?_, ?_, ?_, ?_, ?_, inv.cache_outcome⟩
    · intro a k' h
      by_cases ha : a = i
      · subst ha; simp only [updAt_self] at h; exact CallerPC.noConfusion h
      · simp only [updAt_ne ha] at h
        obtain ⟨ws1, hts, hmem⟩ := inv.waiting_ticket a k' h
        have hk : k' ≠ k := by
          intro hh; rw [hh, hticket] at hts; exact Option.noConfusion hts
        exact ⟨ws1, by simp only [updAt_ne hk]; exact hts, hmem⟩
    · intro k' ws' hws' a hmem
      by_cases hk : k' = k
      · subst hk
        simp only [updAt_self] at hws'
        injection hws' with hws'; subst hws'
        exact absurd hmem (List.not_mem_nil a)
      · simp only [updAt_ne hk] at hws'
        have hold := inv.ticket_waiting k' ws' hws' a hmem
        have ha : a ≠ i := by
          intro hh; rw [hh, hidle] at hold; exact CallerPC.noConfusion hold
        simp only [updAt_ne ha]; exact hold
    · intro a b k' ha hb
      by_cases h1 : a = i <;> by_cases h2 : b = i
      · rw [h1, h2]
      · subst h1
        simp only [updAt_self] at ha
        injection ha with hk; subst hk
        simp only [updAt_ne h2] at hb
        exact absurd (inv.fetch_ticket b k hb) (by simp [hticket])
      · subst h2
        simp only [updAt_self] at hb
        injection hb with hk; subst hk
        simp only [updAt_ne h1] at ha
        exact absurd (inv.fetch_ticket a k ha) (by simp [hticket])
      · simp only [updAt_ne h1] at ha; simp only [updAt_ne h2] at hb
        exact inv.fetch_unique a b k' ha hb
    · intro a k' ha
      by_cases hk : k' = k
      · subst hk; simp only [updAt_self]; exact Option.noConfusion
      · simp only [updAt_ne hk]
        have h1 : a ≠ i := by
          intro hh; subst hh; simp only [updAt_self] at ha
          injection ha with hkk; exact hk hkk.symm
        simp only [updAt_ne h1] at ha
        exact inv.fetch_ticket a k' ha
    · intro k'
      by_cases hk : k' = k
      · subst hk
        simp only [updAt_self]
        have hcc := inv.calls_count k'
        rw [hticket] at hcc
        simpa using hcc
      · simp only [updAt_ne hk]; exact inv.calls_count k'
    · intro k' h
      obtain ⟨w, r, hw⟩ := inv.resolved_done k' h
      have hwi : w ≠ i := by
        intro hh; rw [hh, hidle] at hw; exact CallerPC.noConfusion hw
      exact ⟨w, r, by simp only [updAt_ne hwi]; exact hw⟩
    · intro a k' r ha
      by_cases h1 : a = i
      · subst h1; simp only [updAt_self] at ha; exact CallerPC.noConfusion ha
      · simp only [updAt_ne h1] at ha; exact inv.done_outcome a k' r ha
  | resolve i k hfetch =>
    obtain ⟨ws0, hts0⟩ : ∃ ws0, s.ticket k = some ws0 := by
      cases h : s.ticket k with
      | none => exact absurd h (inv.fetch_ticket i k hfetch)
      | some ws0 => exact ⟨ws0, rfl⟩
    have hws : (s.ticket k).getD [] = ws0 := by rw [hts0]; rfl
    have hmem_pc : ∀ j, j ∈ ws0 → s.pc j = .waitingOn k :=
      inv.ticket_waiting k ws0 hts0
    refine ⟨?_, ?_, ?_, ?_, ?_, ?_, ?_, ?_⟩
    · intro a k' h
      simp only [resolveState, hws] at h ⊢
      by_cases ha : a = i ∨ a ∈ ws0
      · rw [if_pos ha] at h; exact CallerPC.noConfusion h
      · rw [if_neg ha] at h
        obtain ⟨ws1, hts, hmemw⟩ := inv.waiting_ticket a k' h
        have hk : k' ≠ k := by
          intro hh; subst hh
          rw [hts0] at hts
          injection hts with hts; subst hts
          exact ha (Or.inr hmemw)
        exact ⟨ws1, by simp only [updAt_ne hk]; exact hts, hmemw⟩
    · intro k' ws' hws' a hmem
      simp only [resolveState, hws] at hws' ⊢
      by_cases hk : k' = k
      · subst hk; simp only [updAt_self] at hws'; exact Option.noConfusion hws'
      · simp only [updAt_ne hk] at hws'
        have hold := inv.ticket_waiting k' ws' hws' a hmem
        have hna : ¬(a = i ∨ a ∈ ws0) := by
          rintro (hh | hh)
          · rw [hh, hfetch] at hold; exact CallerPC.noConfusion hold
          · rw [hmem_pc a hh] at hold
            injection hold with hkk; exact hk hkk.symm
        rw [if_neg hna]; exact hold
    · intro a b k' ha hb
      simp only [resolveState, hws] at ha hb
      by_cases h1 : a = i ∨ a ∈ ws0
      · rw [if_pos h1] at ha; exact CallerPC.noConfusion ha
      by_cases h2 : b = i ∨ b ∈ ws0
      · rw [if_pos h2] at hb; exact CallerPC.noConfusion hb
      rw [if_neg h1] at ha; rw [if_neg h2] at hb
      exact inv.fetch_unique a b k' ha hb
    · intro a k' ha
      simp only [resolveState, hws] at ha ⊢
      by_cases h1 : a = i ∨ a ∈ ws0
      · rw [if_pos h1] at ha; exact CallerPC.noConfusion ha
      rw [if_neg h1] at ha
      have hk : k' ≠ k := by
        intro hh; subst hh
        exact h1 (Or.inl (inv.fetch_unique a i k' ha hfetch))
      simp only [updAt_ne hk]
      exact inv.fetch_ticket a k' ha
    · intro k'
      simp only [resolveState]
      by_cases hk : k' = k
      · subst hk
        simp only [updAt_self]
        have hcc := inv.calls_count k'
        rw [hts0] at hcc
        simpa using hcc
      · simp only [updAt_ne hk]; exact inv.calls_count k'
    · intro k' h
      simp only [resolveState, hws] at h ⊢
      by_cases hk : k' = k
      · subst hk
        exact ⟨i, fetchOutcome fetchRes k', by rw [if_pos (Or.inl rfl)]⟩
      · simp only [updAt_ne hk] at h
        obtain ⟨w, r, hw⟩ := inv.resolved_done k' h
        have hnw : ¬(w = i ∨ w ∈ ws0) := by
          rintro (hh | hh)
          · rw [hh, hfetch] at hw; exact CallerPC.noConfusion hw
          · rw [hmem_pc w hh] at hw; exact CallerPC.noConfusion hw
        exact ⟨w, r, by rw [if_neg hnw]; exact hw⟩
    · intro a k' r ha
      simp only [resolveState, hws] at ha
      by_cases h1 : a = i ∨ a ∈ ws0
      · rw [if_pos h1] at ha
        injection ha with hk hr
        subst hk; subst hr; rfl
      · rw [if_neg h1] at ha
        exact inv.done_outcome a k' r ha
    · intro k' e h
      simp only [resolveState] at h
      cases hfr : fetchRes k with
      | ok c =>
        rw [hfr] at h
        by_cases hk : k' = k
        · subst hk
          simp only [updAt_self] at h
          injection h with h; subst h
          simp [fetchOutcome, hfr, Except.map]
        · simp only [updAt_ne hk] at h
          exact inv.cache_outcome k' e h
      | error msg =>
        rw [hfr] at h
        exact inv.cache_outcome k' e h

/-- Invariant holds in every state reachable from the cold state. -/
theorem flightInv_reachable {K : Type} [DecidableEq K] {N : Nat}
    {fetchRes : K → Except String String} {k : K} {s : FlightState K N}
    (h : FlightReachable fetchRes (coldState K N k) s) :
    FlightInv fetchRes s := by
  induction h with
  | refl => exact flightInv_cold fetchRes k
  | tail _ hstep ih => exact flightInv_step ih hstep

/-- C2: if the remote cache tier is configured (REDIS_URL differs from the
localhost default) but unreachable at initialization, startup does not fail:
the connection error is recorded as a warning, the Redis client is None, the
DocumentationCache is built with redis_client None, and initialization
proceeds exactly as the registry initialization dictates — the remote-tier
error is never surfaced. -/
theorem redis_unreachable_degrades {R : Type} (envUrl : Option String)
    (connect : String → Except String R) (msg : String)
    (registryInit : Except String Unit)
    (hconf : get_redis_url envUrl ≠ defaultRedisUrl)
    (hfail : connect (get_redis_url envUrl) = .error msg) :
    lifespanStartup envUrl connect registryInit =
      registryInit.map (fun _ =>
        { redis_client := none, docCacheRedis := none,
          redisConnectAttempted := true,
          warnings :=
            ["Could not connect to Redis: " ++ msg ++ ", continuing without Redis"] }) := by
  cases registryInit with
  | error e => simp [lifespanStartup, Except.map]
  | ok u => simp [lifespanStartup, hconf, hfail, bne_iff_ne, Except.map]

/-- Witness for redis_unreachable_degrades at a concrete configured URL, a
connection that always fails, and a successful registry load. -/
theorem redis_unreachable_degrades_witness :
    lifespanStartup (R := Unit) (some "redis://cache.internal:6379/0")
        (fun _ => .error "connection refused") (.ok ()) =
      (Except.ok ()).map (fun _ =>
        { redis_client := none, docCacheRedis := none,
          redisConnectAttempted := true,
          warnings :=
            ["Could not connect to Redis: " ++ "connection refused" ++
              ", continuing without Redis"] }) :=
  redis_unreachable_degrades (some "redis://cache.internal:6379/0")
    (fun _ => .error "connection refused") "connection refused" (.ok ())
    (by decide) rfl

/-- C3: a failure of the framework-registry catalog load at startup is fatal:
lifespanStartup re-raises the exception, so the server never reaches its
ready (yield) state, whatever the Redis configuration was. -/
theorem registry_load_failure_fatal {R : Type} (envUrl : Option String)
    (connect : String → Except String R) (e : String) :
    lifespanStartup envUrl connect (.error e) = .error e := by
  simp [lifespanStartup]

/-- C8: when REDIS_URL is unset or set to the localhost default, no Redis
connection is attempted at all, whatever connect would return: the client is
None, the DocumentationCache is built with redis_client None and no warning
is logged; startup otherwise follows the registry initialization. -/
theorem default_redis_url_no_connection {R : Type} (envUrl : Option String)
    (connect : String → Except String R) (registryInit : Except String Unit)
    (hdefault : envUrl = none ∨ envUrl = some defaultRedisUrl) :
    lifespanStartup envUrl connect registryInit =
      registryInit.map (fun _ =>
        { redis_client := none, docCacheRedis := none,
          redisConnectAttempted := false, warnings := [] }) := by
  have hurl : get_redis_url envUrl = defaultRedisUrl := by
    rcases hdefault with h | h <;> simp [get_redis_url, h]
  cases registryInit with
  | error e => simp [lifespanStartup, Except.map]
  | ok u => simp [lifespanStartup, hurl, Except.map]

/-- Witness for default_redis_url_no_connection: REDIS_URL unset while a
reachable Redis exists (connect always succeeds); no connection happens. -/
theorem default_redis_url_no_connection_witness :
    lifespanStartup (R := Nat) none (fun _ => .ok 7) (.ok ()) =
      (Except.ok ()).map (fun _ =>
        { redis_client := none, docCacheRedis := none,
          redisConnectAttempted := false, warnings := [] }) :=
  default_redis_url_no_connection none (fun _ => .ok 7) (.ok ()) (Or.inl rfl)

/-- C4: spec-modelled serve-stale-on-error.  When the provider fetch of a
triggered refresh fails: a present prior entry (in particular a stale one) is
returned instead of the failure; with no prior entry the failure propagates;
and in every case the cache map is left unchanged, so no poisoned entry is
written. -/
theorem serve_stale_on_error {K : Type} [DecidableEq K] (st : CoordState K)
    (key : K) (e : String) (forceRefresh useCache : Bool) (now ttl : Nat) :
    (∀ prior, st.cache key = some prior → isStale prior now = true →
        (getOrRefresh st key (.error e) forceRefresh useCache now ttl).1 =
          .ok prior)
    ∧ (st.cache key = none →
        (getOrRefresh st key (.error e) forceRefresh useCache now ttl).1 =
          .error e)
    ∧ (getOrRefresh st key (.error e) forceRefresh useCache now ttl).2.cache =
        st.cache := by
  refine ⟨?_, ?_, ?_⟩
  · intro prior hprior hstale
    cases useCache <;> cases forceRefresh <;>
      simp [getOrRefresh, refreshFetch, hprior, hstale]
  · intro hnone
    cases useCache <;> cases forceRefresh <;>
      simp [getOrRefresh, refreshFetch, hnone]
  · cases useCache <;> cases forceRefresh <;> cases hc : st.cache key <;>
      simp [getOrRefresh, refreshFetch, hc] <;> split <;> simp [refreshFetch, hc]

/-- Witness for serve_stale_on_error: a one-key cache holding a stale entry
(fetched at 0 with ttl 1, probed at 5) and a failing refresh; and the
unchanged-cache conclusion evaluated there. -/
theorem serve_stale_on_error_witness :
    (∀ prior,
        (fun _ : Nat => some (CacheEntry.mk "old docs" 0 1)) 0 = some prior →
        isStale prior 5 = true →
        (getOrRefresh
          { cache := fun _ => some (CacheEntry.mk "old docs" 0 1),
            hits := 0, misses := 0, fetchFailures := 0 }
          0 (.error "rate limited") false true 5 24).1 = .ok prior)
    ∧ ((fun _ : Nat => some (CacheEntry.mk "old docs" 0 1)) 0 = none →
        (getOrRefresh
          { cache := fun _ => some (CacheEntry.mk "old docs" 0 1),
            hits := 0, misses := 0, fetchFailures := 0 }
          0 (.error "rate limited") false true 5 24).1 = .error "rate limited")
    ∧ (getOrRefresh
          { cache := fun _ => some (CacheEntry.mk "old docs" 0 1),
            hits := 0, misses := 0, fetchFailures := 0 }
          0 (.error "rate limited") false true 5 24).2.cache =
        (fun _ : Nat => some (CacheEntry.mk "old docs" 0 1)) :=
  serve_stale_on_error
    { cache := fun _ => some (CacheEntry.mk "old docs" 0 1),
      hits := 0, misses := 0, fetchFailures := 0 }
    0 "rate limited" false true 5 24

/-- C5: a tools/call request whose handler raises (any exception from argument
unpacking, dispatch, or the tool implementation, including a fetch that could
produce no content) is answered by process_message with an explicit error
object carrying code -32603 and the exception message, and with no result
field — in the response and in its serialized field list alike. -/
theorem failing_tool_call_gets_error (env : ToolInvocation → Except String Json)
    (message : JsonRpcRequest) (e : String)
    (hm : message.method = "tools/call")
    (he : handle_tools_call env message.params = .error e) :
    process_message env message =
      { id := message.id, result := none, error := some (rpcError (-32603) e) }
    ∧ (serializeResponse (process_message env message)).lookup "result" =
        none := by
  have hmh : methodHandler message.method = some Handler.toolsCall := by
    rw [hm]; rfl
  have hresp : process_message env message =
      { id := message.id, result := none,
        error := some (rpcError (-32603) e) } := by
    simp [process_message, hmh, runHandler, he, Except.map]
  refine ⟨hresp, ?_⟩
  rw [hresp]
  cases message.id <;> simp [serializeResponse, List.lookup]

/-- Witness for failing_tool_call_gets_error: a concrete get_cache_stats call
whose implementation raises. -/
theorem failing_tool_call_gets_error_witness :
    process_message (fun _ => .error "fetch failed")
        { method := "tools/call", id := some (.num 3),
          params := some [("name", .str "get_cache_stats")] } =
      { id := some (.num 3), result := none,
        error := some (rpcError (-32603) "fetch failed") }
    ∧ (serializeResponse (process_message (fun _ => .error "fetch failed")
        { method := "tools/call", id := some (.num 3),
          params := some [("name", .str "get_cache_stats")] })).lookup
        "result" = none :=
  failing_tool_call_gets_error (fun _ => .error "fetch failed")
    { method := "tools/call", id := some (.num 3),
      params := some [("name", .str "get_cache_stats")] }
    "fetch failed" rfl rfl

/-- C6: a get_framework_docs tool call whose arguments omit use_cache is
dispatched to the documentation operation with use_cache equal to the declared
default True, and with section passed through as the raw optional lookup —
absent exactly when omitted. -/
theorem get_framework_docs_defaults (env : ToolInvocation → Except String Json)
    (p args : JObj) (fw : Json)
    (hname : p.lookup "name" = some (.str "get_framework_docs"))
    (hargs : p.lookup "arguments" = some (.obj args))
    (hfw : args.lookup "framework" = some fw)
    (huc : args.lookup "use_cache" = none) :
    handle_tools_call env (some p) =
      env (.get_framework_docs fw (args.lookup "section") (.bool true)) := by
  have hinv : toolInvocation (some p) =
      .ok (.get_framework_docs fw (args.lookup "section") (.bool true)) := by
    simp only [toolInvocation]
    rw [hname]
    simp [Json.isStr, Json.index, Json.get, Json.getOr, hargs, hfw, huc,
      bind, Except.bind]
  unfold handle_tools_call
  rw [hinv]

/-- Witness for get_framework_docs_defaults: a call with only the framework
argument; the dispatcher passes section as absent and use_cache as True. -/
theorem get_framework_docs_defaults_witness :
    handle_tools_call (fun _ => .ok (.str "the docs"))
        (some [("name", .str "get_framework_docs"),
               ("arguments", .obj [("framework", .str "react")])]) =
      (fun _ : ToolInvocation => Except.ok (Json.str "the docs"))
        (.get_framework_docs (.str "react") none (.bool true)) :=
  get_framework_docs_defaults (fun _ => .ok (.str "the docs"))
    [("name", .str "get_framework_docs"),
     ("arguments", .obj [("framework", .str "react")])]
    [("framework", .str "react")] (.str "react") rfl rfl rfl rfl

/-- C7: a search_documentation tool call whose arguments omit limit is
dispatched to the search operation with limit equal to the declared default
10. -/
theorem search_documentation_default_limit
    (env : ToolInvocation → Except String Json) (p args : JObj) (fw q : Json)
    (hname : p.lookup "name" = some (.str "search_documentation"))
    (hargs : p.lookup "arguments" = some (.obj args))
    (hfw : args.lookup "framework" = some fw)
    (hq : args.lookup "query" = some q)
    (hlim : args.lookup "limit" = none) :
    handle_tools_call env (some p) =
      env (.search_documentation fw q (.num 10)) := by
  have hinv : toolInvocation (some p) =
      .ok (.search_documentation fw q (.num 10)) := by
    simp only [toolInvocation]
    rw [hname]
    simp [Json.isStr, Json.index, Json.get, Json.getOr, hargs, hfw, hq, hlim,
      bind, Except.bind]
  unfold handle_tools_call
  rw [hinv]

/-- Witness for search_documentation_default_limit: a call with framework and
query only; the dispatcher passes limit 10. -/
theorem search_documentation_default_limit_witness :
    handle_tools_call (fun _ => .ok (.arr []))
        (some [("name", .str "search_documentation"),
               ("arguments", .obj [("framework", .str "react"),
                                   ("query", .str "hooks")])]) =
      (fun _ : ToolInvocation => Except.ok (Json.arr []))
        (.search_documentation (.str "react") (.str "hooks") (.num 10)) :=
  search_documentation_default_limit (fun _ => .ok (.arr []))
    [("name", .str "search_documentation"),
     ("arguments", .obj [("framework", .str "react"), ("query", .str "hooks")])]
    [("framework", .str "react"), ("query", .str "hooks")]
    (.str "react") (.str "hooks") rfl rfl rfl rfl rfl

/-- C9: process_message is total: it returns exactly one response and always
echoes the request id; a method outside the five registered handlers is
answered -32601; a handler exception is answered -32603; in particular a
tools/call whose unpacking raises (missing or unknown tool name) is answered
-32603, never -32601, since the method itself is registered. -/
theorem process_message_total (env : ToolInvocation → Except String Json)
    (message : JsonRpcRequest) :
    (process_message env message).id = message.id
    ∧ (methodHandler message.method = none →
        process_message env message =
          { id := message.id, result := none,
            error := some (rpcError (-32601)
              ("Method not found: " ++ message.method)) })
    ∧ (∀ h e, methodHandler message.method = some h →
        runHandler env h message.params = .error e →
        process_message env message =
          { id := message.id, result := none,
            error := some (rpcError (-32603) e) })
    ∧ (message.method = "tools/call" → ∀ e,
        toolInvocation message.params = .error e →
        process_message env message =
          { id := message.id, result := none,
            error := some (rpcError (-32603) e) }) := by
  refine ⟨?_, ?_, ?_, ?_⟩
  · cases hmh : methodHandler message.method with
    | none => simp [process_message, hmh]
    | some h =>
      cases hrun : runHandler env h message.params with
      | ok r => simp [process_message, hmh, hrun]
      | error e2 => simp [process_message, hmh, hrun]
  · intro hnone
    simp [process_message, hnone]
  · intro h e hh he
    simp [process_message, hh, he]
  · intro hm e he
    have hmh : methodHandler message.method = some Handler.toolsCall := by
      rw [hm]; rfl
    have hrun : runHandler env Handler.toolsCall message.params = .error e := by
      simp [runHandler, handle_tools_call, he, Except.map]
    simp [process_message, hmh, hrun]

/-- Witness for process_message_total at a concrete unregistered method. -/
theorem process_message_total_witness :
    (process_message (fun _ => .ok .null)
        { method := "prompts/list", id := some (.num 1) }).id =
      some (.num 1)
    ∧ (methodHandler "prompts/list" = none →
        process_message (fun _ => .ok .null)
            { method := "prompts/list", id := some (.num 1) } =
          { id := some (.num 1), result := none,
            error := some (rpcError (-32601)
              ("Method not found: " ++ "prompts/list")) })
    ∧ (∀ h e, methodHandler "prompts/list" = some h →
        runHandler (fun _ => .ok .null) h none = .error e →
        process_message (fun _ => .ok .null)
            { method := "prompts/list", id := some (.num 1) } =
          { id := some (.num 1), result := none,
            error := some (rpcError (-32603) e) })
    ∧ ("prompts/list" = "tools/call" → ∀ e,
        toolInvocation none = .error e →
        process_message (fun _ => .ok .null)
            { method := "prompts/list", id := some (.num 1) } =
          { id := some (.num 1), result := none,
            error := some (rpcError (-32603) e) }) :=
  process_message_total (fun _ => .ok .null)
    { method := "prompts/list", id := some (.num 1) }

/-- C10: a successful request to the initialized method, whose handler
returns Python None, serializes with exclude_none to a field list holding
only jsonrpc and the echoed id: neither a result nor an error field. -/
theorem initialized_serializes_bare (env : ToolInvocation → Except String Json)
    (message : JsonRpcRequest) (v : Json)
    (hm : message.method = "initialized") (hid : message.id = some v) :
    serializeResponse (process_message env message) =
      [("jsonrpc", .str "2.0"), ("id", v)] := by
  have hmh : methodHandler message.method = some Handler.hInitialized := by
    rw [hm]; rfl
  simp [process_message, hmh, runHandler, serializeResponse, hid]

/-- Witness for initialized_serializes_bare at a concrete request. -/
theorem initialized_serializes_bare_witness :
    serializeResponse (process_message (fun _ => .ok .null)
        { method := "initialized", id := some (.num 0),
          params := some [] }) =
      [("jsonrpc", .str "2.0"), ("id", .num 0)] :=
  initialized_serializes_bare (fun _ => .ok .null)
    { method := "initialized", id := some (.num 0), params := some [] }
    (.num 0) rfl rfl

/-- C1: spec-modelled single flight.  In every state reachable from a cold
cache, at most one Content-Provider fetch is in flight per key system-wide;
and in any reachable state where the N concurrent callers (N positive) have
all entered the protocol for the same key — each attached to the ticket or
owning it — the provider has been invoked exactly once, and the only possible
next step releases every caller with the identical outcome of that one fetch:
the same entry on success, the same failure otherwise. -/
theorem single_flight {K : Type} [DecidableEq K] {N : Nat}
    (fetchRes : K → Except String String) (k : K) (s : FlightState K N)
    (hs : FlightReachable fetchRes (coldState K N k) s) :
    (∀ i j k', s.pc i = .fetching k' → s.pc j = .fetching k' → i = j)
    ∧ ((∀ i : Fin N, s.pc i = .waitingOn k ∨ s.pc i = .fetching k) → 0 < N →
        s.providerCalls k = 1
        ∧ ∀ t, FlightStep fetchRes s t →
            ∀ i : Fin N, t.pc i = .done k (fetchOutcome fetchRes k)) := by
  have inv := flightInv_reachable hs
  refine ⟨inv.fetch_unique, fun hjoin hN => ?_⟩
  obtain ⟨ws0, hts0⟩ : ∃ ws0, s.ticket k = some ws0 := by
    rcases hjoin ⟨0, hN⟩ with h | h
    · obtain ⟨ws, hts, hmem⟩ := inv.waiting_ticket _ k h
      exact ⟨ws, hts⟩
    · cases hts : s.ticket k with
      | none => exact absurd hts (inv.fetch_ticket _ k h)
      | some ws => exact ⟨ws, rfl⟩
  have hres0 : s.resolved k = 0 := by
    by_contra hne
    obtain ⟨w, r, hw⟩ := inv.resolved_done k (Nat.pos_of_ne_zero hne)
    rcases hjoin w with h | h <;> rw [h] at hw <;>
      exact CallerPC.noConfusion hw
  refine ⟨?_, ?_⟩
  · have hcc := inv.calls_count k
    rw [hts0, hres0] at hcc
    simpa using hcc
  · intro t hstep i
    cases hstep with
    | hit i' k' e hidle hcache =>
      rcases hjoin i' with h | h <;> rw [h] at hidle <;>
        exact CallerPC.noConfusion hidle
    | attach i' k' ws hidle hcache hticket =>
      rcases hjoin i' with h | h <;> rw [h] at hidle <;>
        exact CallerPC.noConfusion hidle
    | createTicket i' k' hidle hcache hticket =>
      rcases hjoin i' with h | h <;> rw [h] at hidle <;>
        exact CallerPC.noConfusion hidle
    | resolve i0 k0 hfetch =>
      have hk0 : k0 = k := by
        rcases hjoin i0 with h | h
        · rw [hfetch] at h; exact CallerPC.noConfusion h
        · rw [hfetch] at h
          exact CallerPC.fetching.inj h
      subst hk0
      have hgetD : (s.ticket k0).getD [] = ws0 := by rw [hts0]; rfl
      simp only [resolveState, hgetD]
      by_cases hin : i = i0 ∨ i ∈ ws0
      · rw [if_pos hin]
      · exfalso
        rcases hjoin i with h | h
        · obtain ⟨ws1, hts1, hmem1⟩ := inv.waiting_ticket i k0 h
          rw [hts0] at hts1
          injection hts1 with he1
          subst he1
          exact hin (Or.inr hmem1)
        · exact hin (Or.inl (inv.fetch_unique i i0 k0 h hfetch))

/-- Concrete provider for the single-flight witness: every fetch of key 0
succeeds with the same content. -/
def demoFetch : Nat → Except String String := fun _ => .ok "react docs"

/-- Cold two-caller start state for the single-flight witness. -/
def demoCold : FlightState Nat 2 := coldState Nat 2 0

/-- State after caller 0 atomically creates the ticket for key 0 and starts
the one provider fetch. -/
def demoStep1 : FlightState Nat 2 :=
  { demoCold with
    ticket := updAt demoCold.ticket 0 (some []),
    providerCalls := updAt demoCold.providerCalls 0
      (demoCold.providerCalls 0 + 1),
    pc := updAt demoCold.pc 0 (.fetching 0) }

/-- State after caller 1 attaches to the existing ticket instead of fetching. -/
def demoStep2 : FlightState Nat 2 :=
  { demoStep1 with
    ticket := updAt demoStep1.ticket 0 (some [1]),
    pc := updAt demoStep1.pc 1 (.waitingOn 0) }

theorem demoReach : FlightReachable demoFetch demoCold demoStep2 := by
  refine Relation.ReflTransGen.head
    (FlightStep.createTicket demoCold 0 0 rfl rfl rfl) ?_
  refine Relation.ReflTransGen.head
    (FlightStep.attach demoStep1 1 0 [] rfl rfl rfl) ?_
  exact Relation.ReflTransGen.refl

/-- Witness for single_flight: two concurrent callers on key 0 of a cold
cache, one owning the fetch and one attached; exactly one provider call has
happened and the only possible step hands both callers the same entry. -/
theorem single_flight_witness :
    demoStep2.providerCalls 0 = 1
    ∧ ∀ t, FlightStep demoFetch demoStep2 t →
        ∀ i : Fin 2, t.pc i = .done 0 (fetchOutcome demoFetch 0) :=
  (single_flight demoFetch 0 demoStep2 demoReach).2 (by decide) (by decide)
